import Mathlib

/-!
Verification of the data-generation pipeline of `src/pyApp.py`.

The pipeline's pure core is embedded shallowly:

* timestamps (pandas `Timestamp`s at minute resolution) become `Nat`
  minutes since 1970-01-01 00:00 in the proleptic Gregorian calendar;
* `pd.DataFrame`s with columns `Asset name`, `Timestamp`, `KPI Trigger`
  become `List Row`;
* the raw uploaded Excel table (read with `header=None`) becomes a
  `List (List (Option String))` — a list of rows, each a list of cells,
  `none` standing for a NaN/absent cell;
* functions that `raise ValueError` return `Except String _`.

`strftime` with format `%d/%m/%Y %H:%M` is embedded via the standard
civil-from-days conversion (`civilFromDays`), and `pd.to_datetime`-style
reading of such strings back via `daysFromCivil`/`parseTimestamp`.
-/

namespace PyApp

/-- Zero-pad a natural number to two digits, as `strftime` does for
`%d`, `%m`, `%H`, `%M`. -/
def pad2 (n : Nat) : String :=
  if n < 10 then "0" ++ toString n else toString n

/-- Zero-pad a natural number to four digits, as `strftime` does for `%Y`. -/
def pad4 (n : Nat) : String :=
  if n < 10 then "000" ++ toString n
  else if n < 100 then "00" ++ toString n
  else if n < 1000 then "0" ++ toString n
  else toString n

/-- Convert a count of days since 1970-01-01 to a civil (year, month, day)
triple of the proleptic Gregorian calendar (the calendar pandas uses).
Standard era-based conversion, specialised to days ≥ 0. -/
def civilFromDays (z0 : Nat) : Nat × Nat × Nat :=
  let z := z0 + 719468
  let era := z / 146097
  let doe := z % 146097
  let yoe := ((doe + doe / 36524) - (doe / 1460 + doe / 146096)) / 365
  let y := yoe + era * 400
  let doy := doe - ((365 * yoe + yoe / 4) - yoe / 100)
  let mp := (5 * doy + 2) / 153
  let d := doy - (153 * mp + 2) / 5 + 1
  let m := if mp < 10 then mp + 3 else mp - 9
  (if m ≤ 2 then y + 1 else y, m, d)

/-- Inverse of `civilFromDays` for dates on or after 1970-01-01: days since
1970-01-01 of the civil date (y, m, d). -/
def daysFromCivil (y m d : Nat) : Nat :=
  let y' := if m ≤ 2 then y - 1 else y
  let era := y' / 400
  let yoe := y' - era * 400
  let mp := if 2 < m then m - 3 else m + 9
  let doy := (153 * mp + 2) / 5 + d - 1
  let doe := (365 * yoe + yoe / 4 + doy) - yoe / 100
  (era * 146097 + doe) - 719468

/-- `full_df['Timestamp'].dt.strftime('%d/%m/%Y %H:%M')` on one timestamp:
render a minute count since 1970-01-01 00:00 as `DD/MM/YYYY HH:MM`. -/
def formatTimestamp (t : Nat) : String :=
  let day := t / 1440
  let rem := t % 1440
  let c := civilFromDays day
  pad2 c.2.2 ++ "/" ++ pad2 c.2.1 ++ "/" ++ pad4 c.1 ++ " " ++
    pad2 (rem / 60) ++ ":" ++ pad2 (rem % 60)

/-- Read a fixed-width `DD/MM/YYYY HH:MM` string of digits back as the number
of digits in the given character range interpreted as a decimal number. -/
def digitsToNat (cs : List Char) (a b : Nat) : Nat :=
  ((cs.drop a).take (b - a)).foldl (fun acc c => acc * 10 + (c.toNat - 48)) 0

/-- The instant (minutes since 1970-01-01 00:00) denoted by a formatted
`DD/MM/YYYY HH:MM` string.  This is the chronological value the string
denotes, used to state sortedness-by-time claims. -/
def parseTimestamp (s : String) : Nat :=
  let cs := s.toList
  daysFromCivil (digitsToNat cs 6 10) (digitsToNat cs 3 5) (digitsToNat cs 0 2) * 1440 +
    digitsToNat cs 11 13 * 60 + digitsToNat cs 14 16

/-- One row of the generated DataFrame: columns `Asset name`, `Timestamp`
(already rendered to text), `KPI Trigger`. -/
structure Row where
  name : String
  ts : String
  kpi : Nat
  deriving DecidableEq, Repr

/-- Code-point lexicographic comparison of character lists — the strict
comparison Python applies to strings (and pandas to object/string columns)
when sorting. -/
def strLtB : List Char → List Char → Bool
  | [], [] => false
  | [], _ :: _ => true
  | _ :: _, [] => false
  | a :: as, b :: bs => if a = b then strLtB as bs else decide (a < b)

/-- Python's `<` on strings. -/
def pyStrLt (a b : String) : Bool :=
  strLtB a.toList b.toList

/-- Python's `<=` on strings. -/
def pyStrLe (a b : String) : Bool :=
  pyStrLt a b || decide (a = b)

theorem strLtB_asymm : ∀ as bs, strLtB as bs = true → strLtB bs as = false
  | [], [] => by simp [strLtB]
  | [], _ :: _ => by simp [strLtB]
  | _ :: _, [] => by simp [strLtB]
  | a :: as, b :: bs => by
    intro h
    by_cases hab : a = b
    · subst hab
      simp only [strLtB, if_pos rfl] at h ⊢
      exact strLtB_asymm as bs h
    · have hba : b ≠ a := fun e => hab e.symm
      simp only [strLtB, if_neg hab] at h
      simp only [strLtB, if_neg hba]
      have hlt : a < b := of_decide_eq_true h
      simpa using lt_asymm hlt

theorem strLtB_eq_of_not : ∀ as bs, strLtB as bs = false → strLtB bs as = false → as = bs
  | [], [] => fun _ _ => rfl
  | [], _ :: _ => by simp [strLtB]
  | _ :: _, [] => by simp [strLtB]
  | a :: as, b :: bs => by
    intro h1 h2
    by_cases hab : a = b
    · subst hab
      simp only [strLtB, if_pos rfl] at h1 h2
      rw [strLtB_eq_of_not as bs h1 h2]
    · have hba : b ≠ a := fun e => hab e.symm
      simp only [strLtB, if_neg hab] at h1
      simp only [strLtB, if_neg hba] at h2
      rcases lt_trichotomy a b with h | h | h
      · exact absurd h (by simpa using h1)
      · exact absurd h hab
      · exact absurd h (by simpa using h2)

theorem strLtB_trans : ∀ as bs cs,
    strLtB as bs = true → strLtB bs cs = true → strLtB as cs = true
  | [], [], _ => by simp [strLtB]
  | [], _ :: _, [] => by simp [strLtB]
  | [], _ :: _, _ :: _ => by simp [strLtB]
  | _ :: _, [], _ => by simp [strLtB]
  | _ :: _, _ :: _, [] => by simp [strLtB]
  | a :: as, b :: bs, c :: cs => by
    intro h1 h2
    by_cases hab : a = b
    · subst hab
      simp only [strLtB, if_pos rfl] at h1
      by_cases hac : a = c
      · subst hac
        simp only [strLtB, if_pos rfl] at h2 ⊢
        exact strLtB_trans as bs cs h1 h2
      · simp only [strLtB, if_neg hac] at h2 ⊢
        exact h2
    · simp only [strLtB, if_neg hab] at h1
      have hlt1 : a < b := of_decide_eq_true h1
      by_cases hbc : b = c
      · subst hbc
        simp only [strLtB, if_neg hab]
        exact h1
      · simp only [strLtB, if_neg hbc] at h2
        have hlt2 : b < c := of_decide_eq_true h2
        have hlt : a < c := lt_trans hlt1 hlt2
        simp only [strLtB, if_neg (ne_of_lt hlt)]
        exact decide_eq_true hlt

theorem pyStrLt_trans {a b c : String} (h1 : pyStrLt a b = true)
    (h2 : pyStrLt b c = true) : pyStrLt a c = true :=
  strLtB_trans _ _ _ h1 h2

theorem pyStrLt_eq {a b : String} (h1 : pyStrLt a b = false)
    (h2 : pyStrLt b a = false) : a = b :=
  String.ext (strLtB_eq_of_not _ _ h1 h2)

theorem pyStrLe_trans {a b c : String} (h1 : pyStrLe a b = true)
    (h2 : pyStrLe b c = true) : pyStrLe a c = true := by
  simp only [pyStrLe, Bool.or_eq_true, decide_eq_true_eq] at h1 h2 ⊢
  rcases h1 with h1 | e1
  · rcases h2 with h2 | e2
    · exact Or.inl (pyStrLt_trans h1 h2)
    · exact Or.inl (e2 ▸ h1)
  · subst e1
    exact h2

/-- The sort key ordering used by
`full_df.sort_values(['Asset name', 'Timestamp'])`: lexicographic on the
pair of strings — pandas compares the already-formatted `Timestamp`
strings, i.e. plain string order. -/
def rowLe (a b : Row) : Prop :=
  pyStrLt a.name b.name = true ∨ (a.name = b.name ∧ pyStrLe a.ts b.ts = true)

instance : DecidableRel rowLe := fun a b =>
  inferInstanceAs (Decidable (pyStrLt a.name b.name = true ∨
    (a.name = b.name ∧ pyStrLe a.ts b.ts = true)))

/-- Row order sorted by meter then by the chronological instant the
`Timestamp` string denotes — the order the specification claims. -/
def chronoRowLe (a b : Row) : Prop :=
  pyStrLt a.name b.name = true ∨
    (a.name = b.name ∧ parseTimestamp a.ts ≤ parseTimestamp b.ts)

instance : DecidableRel chronoRowLe := fun a b =>
  inferInstanceAs (Decidable (pyStrLt a.name b.name = true ∨
    (a.name = b.name ∧ parseTimestamp a.ts ≤ parseTimestamp b.ts)))

instance : IsTotal Row rowLe := by
  constructor
  intro a b
  by_cases h1 : pyStrLt a.name b.name = true
  · exact Or.inl (Or.inl h1)
  · by_cases h2 : pyStrLt b.name a.name = true
    · exact Or.inr (Or.inl h2)
    · have he : a.name = b.name :=
        pyStrLt_eq (by simpa using h1) (by simpa using h2)
      by_cases h3 : pyStrLt a.ts b.ts = true
      · exact Or.inl (Or.inr ⟨he, by simp [pyStrLe, h3]⟩)
      · by_cases h4 : pyStrLt b.ts a.ts = true
        · exact Or.inr (Or.inr ⟨he.symm, by simp [pyStrLe, h4]⟩)
        · have hts : a.ts = b.ts := pyStrLt_eq (by simpa using h3) (by simpa using h4)
          exact Or.inl (Or.inr ⟨he, by simp [pyStrLe, hts]⟩)

instance : IsTrans Row rowLe := by
  constructor
  intro a b c hab hbc
  rcases hab with h1 | ⟨e1, l1⟩
  · rcases hbc with h2 | ⟨e2, _⟩
    · exact Or.inl (pyStrLt_trans h1 h2)
    · exact Or.inl (e2 ▸ h1)
  · rcases hbc with h2 | ⟨e2, l2⟩
    · exact Or.inl (by rw [e1]; exact h2)
    · exact Or.inr ⟨e1.trans e2, pyStrLe_trans l1 l2⟩

/-- `generate_timestamps`'s frequency argument: the step (in minutes) of the
frequency strings offered by the app, `None` for unsupported specifiers. -/
def freqStep (frequency : String) : Option Nat :=
  if frequency = "15T" then some 15
  else if frequency = "30T" then some 30
  else if frequency = "1H" then some 60
  else none

/-- `generate_timestamps(start_date, end_date, frequency)`:
`pd.date_range(start, end, freq)` with a fixed (tick) frequency returns
`start, start+step, start+2*step, …` up to and including `end`, and the
empty index when `start > end`. -/
def generate_timestamps (start_date end_date : Nat) (frequency : String) :
    Option (List Nat) :=
  match freqStep frequency with
  | none => none
  | some step =>
    some (if start_date ≤ end_date then
      (List.range ((end_date - start_date) / step + 1)).map
        (fun k => start_date + k * step)
    else [])

/-- The body of `create_full_df` before sorting: `np.repeat` of the meters
zipped with `np.tile` of the timestamps is exactly the meter-major cross
product; the `KPI Trigger` column is the constant 1; the `Timestamp` column
is rendered with `strftime('%d/%m/%Y %H:%M')`. -/
def crossRows (meters : List String) (timestamps : List Nat) : List Row :=
  meters.flatMap (fun m =>
    timestamps.map (fun t => Row.mk m (formatTimestamp t) 1))

/-- `create_full_df(meters, timestamps)`: build the cross product (see
`crossRows`) and sort by `['Asset name', 'Timestamp']` — the `Timestamp`
column is already a string column at that point, so the second key is
plain string order. -/
def create_full_df (meters : List String) (timestamps : List Nat) :
    Except String (List Row) :=
  if meters = [] ∨ timestamps = [] then
    Except.error "No meters or timestamps to process"
  else
    Except.ok (List.insertionSort rowLe (crossRows meters timestamps))

/-- First check of `validate_generated_df`: `full_df['Asset name'].unique()`
is embedded as `dedup` of the name column (only its length and membership
are used by the check); when its length differs from `len(meters)`, any
meters absent from the dataset are reported (first five shown). -/
def vgErr1 (full_df : List Row) (meters : List String) : List String :=
  if ((full_df.map Row.name).dedup).length ≠ meters.length then
    if meters.filter (fun m => ¬ m ∈ (full_df.map Row.name).dedup) ≠ [] then
      ["Missing meters in generated data: " ++
        toString ((meters.filter (fun m => ¬ m ∈ (full_df.map Row.name).dedup)).take 5)]
    else []
  else []

/-- Second check: `duplicated(subset=['Asset name','Timestamp']).sum()`
counts the rows beyond the first occurrence of each (name, timestamp) pair,
i.e. the number of rows minus the number of distinct pairs. -/
def vgErr2 (full_df : List Row) : List String :=
  if full_df.length - ((full_df.map (fun r => (r.name, r.ts))).dedup).length > 0 then
    ["Found " ++
      toString (full_df.length - ((full_df.map (fun r => (r.name, r.ts))).dedup).length) ++
      " duplicated entries"]
  else []

/-- Third check: rows whose `KPI Trigger` differs from 1. -/
def vgErr3 (full_df : List Row) : List String :=
  if (full_df.filter (fun r => r.kpi ≠ 1)).length > 0 then
    ["Found " ++ toString (full_df.filter (fun r => r.kpi ≠ 1)).length ++
      " records with KPI Trigger != 1"]
  else []

/-- Sampled per-meter record-count check over the first three meters;
mismatches are warnings, not errors. -/
def vgWarnings (full_df : List Row) (meters : List String) (timestamps : List Nat) :
    List String :=
  (meters.take 3).filterMap (fun m =>
    if (full_df.filter (fun r => r.name = m)).length ≠ timestamps.length then
      some ("Meter " ++ m ++ " has " ++
        toString (full_df.filter (fun r => r.name = m)).length ++
        " records, expected " ++ toString timestamps.length)
    else none)

/-- `validate_generated_df(full_df, meters, timestamps)`: the pair
(validation_errors, warnings); the three error checks run in source order
and append their messages.  Message texts render Python's f-strings with
Lean's `toString`. -/
def validate_generated_df (full_df : List Row) (meters : List String)
    (timestamps : List Nat) : List String × List String :=
  (vgErr1 full_df meters ++ vgErr2 full_df ++ vgErr3 full_df,
   vgWarnings full_df meters timestamps)

/-- `split_dataframe(df, num_chunks)`: `chunk_size = len(df) // num_chunks`;
chunk `i` is `df.iloc[start_idx:end_idx]` with `start_idx = i * chunk_size`
and `end_idx = len(df)` for the last chunk, `(i+1) * chunk_size` otherwise.
`df.iloc[s:e]` becomes `(df.drop s).take (e - s)`. -/
def split_dataframe {α : Type} (df : List α) (num_chunks : Nat) :
    List (List α) :=
  if num_chunks ≤ 1 then [df]
  else
    (List.range num_chunks).map (fun i =>
      (df.drop (i * (df.length / num_chunks))).take
        ((if i = num_chunks - 1 then df.length
          else (i + 1) * (df.length / num_chunks)) -
          i * (df.length / num_chunks)))

/-- The archive-writing loop of `main` (step 6): for each chunk, in order
and unconditionally, one file named `virtual_meters_part_{i:02d}.xlsx`
(1-indexed) is written into the ZIP. -/
def archive_file_names (chunks : List (List Row)) : List String :=
  (List.range chunks.length).map
    (fun i => "virtual_meters_part_" ++ pad2 (i + 1) ++ ".xlsx")

/-- The result tuple of `validate_uploaded_file`. -/
structure UploadResult where
  unique_meters : List String
  invalid_meters : List (Nat × String × String)
  duplicate_meters : List String
  validation_issues : List String
  deriving DecidableEq, Repr

/-- `df.iloc[:, 0]`: the first column of the raw uploaded table.  Only this
column is ever read by `validate_uploaded_file`. -/
def firstCol (df : List (List (Option String))) : List (Option String) :=
  df.map (fun r => r.getD 0 none)

/-- Python's `str.strip()`: remove leading and trailing whitespace,
embedded on the character list. -/
def pyStrip (s : String) : String :=
  String.mk (((s.toList.dropWhile Char.isWhitespace).reverse.dropWhile
    Char.isWhitespace).reverse)

/-- The classification loop of `validate_uploaded_file` over the pairs
produced by `meter_data.dropna().items()` (index label, non-NaN value):
a value whose `str(...).strip()` is empty goes to `invalid_meters` as
`(idx + 2, value, "Empty or NaN value")`; otherwise its stripped form goes
to `valid_meters`.  (The in-loop `pd.isna` test can never fire after
`dropna()`, and the second emptiness test is subsumed by the first.) -/
def classifyMeters : List (Nat × String) → List String × List (Nat × String × String)
  | [] => ([], [])
  | (i, v) :: rest =>
    let acc := classifyMeters rest
    if pyStrip v = "" then (acc.1, (i + 2, v, "Empty or NaN value") :: acc.2)
    else (pyStrip v :: acc.1, acc.2)

/-- The deduplication loop of `validate_uploaded_file`: walk the valid
meters keeping a `seen` set; first occurrences go to `unique_meters` in
order, later repeats to `duplicate_meters`. -/
def dedupeMeters : List String → List String → List String × List String
  | [], _ => ([], [])
  | m :: rest, seen =>
    if m ∈ seen then
      let acc := dedupeMeters rest seen
      (acc.1, m :: acc.2)
    else
      let acc := dedupeMeters rest (m :: seen)
      (m :: acc.1, acc.2)

/-- `df.iloc[1:, 0]`: the first column without its header row, keeping the
original positional index labels (embedded by `enum` before `drop 1`).
The source guards with `if len(df) > 1 else pd.Series(...)`, which `drop 1`
reproduces on a one-row table. -/
def meterData (df : List (List (Option String))) : List (Nat × Option String) :=
  ((firstCol df).enum).drop 1

/-- `meter_data.dropna().items()`: the (index label, value) pairs whose value
is not NaN. -/
def itemsOf (df : List (List (Option String))) : List (Nat × String) :=
  (meterData df).filterMap (fun p => p.2.map (fun v => (p.1, v)))

/-- `validate_uploaded_file(df)`.  The raw table is a list of rows of
optional cells. -/
def validate_uploaded_file (df : List (List (Option String))) :
    Except String UploadResult :=
  if df = [] then Except.error "Uploaded Excel is empty."
  else
    if (meterData df).length = 0 then
      Except.error "No meter data found after skipping header row."
    else
      let cls := classifyMeters (itemsOf df)
      let ded := dedupeMeters cls.1 []
      let issues :=
        (if ded.2 ≠ [] then
          ["Found " ++ toString ded.2.length ++ " duplicate meters (will be deduplicated)"]
        else []) ++
        (if cls.2 ≠ [] then
          ["Found " ++ toString cls.2.length ++ " invalid meter entries"]
        else [])
      Except.ok ⟨ded.1, cls.2, ded.2, issues⟩

/-- The first-seen deduplication walk as the specification words it:
scan candidates in original order; a value not yet seen is appended to the
unique list (preserving first-seen order), a repeat is appended to the
duplicate list. -/
def specFirstSeen (cands : List String) : List String × List String :=
  cands.foldl
    (fun acc m => if m ∈ acc.1 then (acc.1, acc.2 ++ [m]) else (acc.1 ++ [m], acc.2))
    ([], [])

/-! ### Helper lemmas -/

theorem freqStep_pos {f : String} {st : Nat} (h : freqStep f = some st) : 0 < st := by
  unfold freqStep at h
  split_ifs at h <;>
    first
    | exact Option.noConfusion h
    | (injection h with h2; omega)

/-- Boundaries of the chunks produced by `split_dataframe`: chunk `i`
covers the row interval `[chunkBound len N i, chunkBound len N (i+1))`. -/
def chunkBound (len N i : Nat) : Nat :=
  if i < N then i * (len / N) else len

theorem chunkBound_zero (len N : Nat) (h : 0 < N) : chunkBound len N 0 = 0 := by
  simp [chunkBound, h]

theorem chunkBound_mono (len N i : Nat) (hi : i < N) :
    chunkBound len N i ≤ chunkBound len N (i + 1) := by
  unfold chunkBound
  rw [if_pos hi]
  by_cases h : i + 1 < N
  · rw [if_pos h]
    exact Nat.mul_le_mul (Nat.le_succ i) (Nat.le_refl _)
  · rw [if_neg h]
    calc i * (len / N) ≤ N * (len / N) := Nat.mul_le_mul (le_of_lt hi) (Nat.le_refl _)
      _ ≤ len := by rw [Nat.mul_comm]; exact Nat.div_mul_le_self len N

theorem flatten_slices {α : Type} (l : List α) (b : Nat → Nat) (hb0 : b 0 = 0) (n : Nat)
    (hmono : ∀ i, i < n → b i ≤ b (i + 1)) :
    ((List.range n).map (fun i => (l.drop (b i)).take (b (i + 1) - b i))).flatten
      = l.take (b n) := by
  induction n with
  | zero => simp [hb0]
  | succ n ih =>
    rw [List.range_succ, List.map_append, List.flatten_append,
      ih (fun i hi => hmono i (Nat.lt_succ_of_lt hi))]
    simp only [List.map_cons, List.map_nil, List.flatten_cons, List.flatten_nil,
      List.append_nil]
    rw [← List.take_add]
    have := hmono n (Nat.lt_succ_self n)
    congr 1
    omega

theorem split_dataframe_eq_slices {α : Type} (df : List α) (N : Nat) (h2 : 2 ≤ N) :
    split_dataframe df N = (List.range N).map (fun i =>
      (df.drop (chunkBound df.length N i)).take
        (chunkBound df.length N (i + 1) - chunkBound df.length N i)) := by
  unfold split_dataframe
  rw [if_neg (by omega)]
  apply List.map_congr_left
  intro i hi
  rw [List.mem_range] at hi
  have hib : chunkBound df.length N i = i * (df.length / N) := if_pos hi
  by_cases hlast : i = N - 1
  · have hnot : ¬ (i + 1 < N) := by omega
    rw [if_pos hlast, hib, show chunkBound df.length N (i + 1) = df.length from if_neg hnot]
  · have hyes : i + 1 < N := by omega
    rw [if_neg hlast, hib,
      show chunkBound df.length N (i + 1) = (i + 1) * (df.length / N) from if_pos hyes]

/-! ### C8 — timestamp grid generator -/

/-- C8: for `start ≤ end` and a supported frequency with step size `step`,
`generate_timestamps` returns exactly the instants `start + k*step` with
`k ≥ 0` and `start + k*step ≤ end`, in strictly increasing order, so its
length is `(end − start)/step + 1`; when `start = end` it is `[start]`. -/
theorem generate_timestamps_spec (s e : Nat) (f : String) (step : Nat)
    (hf : freqStep f = some step) (hse : s ≤ e) :
    ∃ g, generate_timestamps s e f = some g ∧
      (∀ x, x ∈ g ↔ ∃ k, x = s + k * step ∧ x ≤ e) ∧
      List.Pairwise (fun a b => a < b) g ∧
      g.length = (e - s) / step + 1 ∧
      (s = e → g = [s]) := by
  have hstep : 0 < step := freqStep_pos hf
  refine ⟨(List.range ((e - s) / step + 1)).map (fun k => s + k * step), ?_, ?_, ?_, ?_, ?_⟩
  · unfold generate_timestamps
    rw [hf]
    simp [hse]
  · intro x
    simp only [List.mem_map, List.mem_range]
    constructor
    · rintro ⟨k, hk, rfl⟩
      refine ⟨k, rfl, ?_⟩
      have hk' : k ≤ (e - s) / step := Nat.lt_succ_iff.mp hk
      have := (Nat.le_div_iff_mul_le hstep).mp hk'
      omega
    · rintro ⟨k, rfl, hle⟩
      refine ⟨k, ?_, rfl⟩
      have hk : k * step ≤ e - s := by omega
      exact Nat.lt_succ_iff.mpr ((Nat.le_div_iff_mul_le hstep).mpr hk)
  · refine List.Pairwise.map _ ?_ (List.pairwise_lt_range _)
    intro a b hab
    exact Nat.add_lt_add_left (Nat.mul_lt_mul_of_pos_right hab hstep) s
  · simp
  · intro hse'
    subst hse'
    simp [Nat.sub_self, List.range_succ]

/-- Witness for C8 at the spec scenario start 0, end 60, frequency 30T. -/
theorem generate_timestamps_spec_witness :
    ∃ g, generate_timestamps 0 60 "30T" = some g ∧
      (∀ x, x ∈ g ↔ ∃ k, x = 0 + k * 30 ∧ x ≤ 60) ∧
      List.Pairwise (fun a b => a < b) g ∧
      g.length = (60 - 0) / 30 + 1 ∧
      (0 = 60 → g = [0]) :=
  generate_timestamps_spec 0 60 "30T" 30 (by decide) (by decide)

/-! ### C4 — chunk splitter round trip -/

/-- C4: for `1 ≤ N ≤ |df|`, concatenating the chunks of `split_dataframe`
in index order reproduces `df` exactly; there are `N` chunks and chunk `i`
is the contiguous slice `[chunkBound |df| N i, chunkBound |df| N (i+1))`
of `df`, with monotone boundaries — so the chunks are pairwise disjoint,
contiguous, order-preserving slices. -/
theorem split_dataframe_roundtrip {α : Type} (df : List α) (N : Nat)
    (h1 : 1 ≤ N) (h2 : N ≤ df.length) :
    (split_dataframe df N).flatten = df ∧
    (split_dataframe df N).length = N ∧
    (∀ i, i < N → (split_dataframe df N).getD i [] =
      (df.drop (chunkBound df.length N i)).take
        (chunkBound df.length N (i + 1) - chunkBound df.length N i)) ∧
    (∀ i, i < N → chunkBound df.length N i ≤ chunkBound df.length N (i + 1)) := by
  by_cases hN : N ≤ 1
  · have hN1 : N = 1 := by omega
    subst hN1
    refine ⟨by simp [split_dataframe], by simp [split_dataframe], ?_,
      fun i hi => chunkBound_mono _ _ _ hi⟩
    intro i hi
    have hi0 : i = 0 := by omega
    subst hi0
    simp [split_dataframe, chunkBound]
  · have h2' : 2 ≤ N := by omega
    rw [split_dataframe_eq_slices df N h2']
    refine ⟨?_, by simp, ?_, fun i hi => chunkBound_mono _ _ _ hi⟩
    · rw [flatten_slices df (chunkBound df.length N) (chunkBound_zero _ _ (by omega)) N
        (fun i hi => chunkBound_mono _ _ _ hi),
        show chunkBound df.length N N = df.length from if_neg (lt_irrefl N)]
      simp
    · intro i hi
      simp [List.getD_eq_getElem?_getD, List.getElem?_map, List.getElem?_range, hi]

/-- Witness for C4 on a five-row dataset split into two chunks. -/
theorem split_dataframe_roundtrip_witness :
    (split_dataframe ([10, 20, 30, 40, 50] : List Nat) 2).flatten = [10, 20, 30, 40, 50] ∧
    (split_dataframe ([10, 20, 30, 40, 50] : List Nat) 2).length = 2 ∧
    (∀ i, i < 2 → (split_dataframe ([10, 20, 30, 40, 50] : List Nat) 2).getD i [] =
      (([10, 20, 30, 40, 50] : List Nat).drop (chunkBound 5 2 i)).take
        (chunkBound 5 2 (i + 1) - chunkBound 5 2 i)) ∧
    (∀ i, i < 2 → chunkBound 5 2 i ≤ chunkBound 5 2 (i + 1)) :=
  split_dataframe_roundtrip [10, 20, 30, 40, 50] 2 (by decide) (by decide)

/-! ### C10 — more chunks than rows -/

/-- C10: for any `N ≥ 2`, `split_dataframe` returns exactly `N` chunks; when
`N` exceeds the row count the first `N − 1` chunks are empty and the last
chunk is the whole dataset, and the packaging loop still writes one archive
file per chunk, empty ones included. -/
theorem split_dataframe_overcount (df : List Row) (N : Nat) (h : 2 ≤ N) :
    (split_dataframe df N).length = N ∧
    (df.length < N →
      (∀ i, i < N - 1 → (split_dataframe df N).getD i [] = []) ∧
      (split_dataframe df N).getLast? = some df) ∧
    (archive_file_names (split_dataframe df N)).length = N := by
  rw [split_dataframe_eq_slices df N h]
  refine ⟨by simp, ?_, by simp [archive_file_names]⟩
  intro hlen
  have hcs : df.length / N = 0 := Nat.div_eq_of_lt hlen
  constructor
  · intro i hi
    have hiN : i < N := by omega
    have hb1 : chunkBound df.length N i = 0 := by simp [chunkBound, hiN, hcs]
    have hi1 : i + 1 < N := by omega
    have hb2 : chunkBound df.length N (i + 1) = 0 := by simp [chunkBound, hi1, hcs]
    simp [List.getD_eq_getElem?_getD, List.getElem?_map, List.getElem?_range, hiN, hb1, hb2]
  · rw [List.getLast?_eq_getElem?]
    simp only [List.length_map, List.length_range]
    have hN1 : N - 1 < N := by omega
    rw [List.getElem?_map, List.getElem?_range hN1]
    have hb1 : chunkBound df.length N (N - 1) = 0 := by simp [chunkBound, hN1, hcs]
    have hb2 : chunkBound df.length N (N - 1 + 1) = df.length := by
      have hnot : ¬ (N - 1 + 1 < N) := by omega
      simp [chunkBound, hnot]
    simp [hb1, hb2]

/-- Witness for C10: one row, three chunks. -/
theorem split_dataframe_overcount_witness :
    (split_dataframe [Row.mk "A" "01/01/1970 00:00" 1] 3).length = 3 ∧
    (([Row.mk "A" "01/01/1970 00:00" 1] : List Row).length < 3 →
      (∀ i, i < 3 - 1 → (split_dataframe [Row.mk "A" "01/01/1970 00:00" 1] 3).getD i [] = []) ∧
      (split_dataframe [Row.mk "A" "01/01/1970 00:00" 1] 3).getLast?
        = some [Row.mk "A" "01/01/1970 00:00" 1]) ∧
    (archive_file_names (split_dataframe [Row.mk "A" "01/01/1970 00:00" 1] 3)).length = 3 :=
  split_dataframe_overcount [Row.mk "A" "01/01/1970 00:00" 1] 3 (by decide)

/-! ### Dataset builder helper lemmas -/

theorem create_full_df_eq (meters : List String) (ts : List Nat)
    (h1 : meters ≠ []) (h2 : ts ≠ []) :
    create_full_df meters ts
      = Except.ok (List.insertionSort rowLe (crossRows meters ts)) := by
  unfold create_full_df
  rw [if_neg (by simp [h1, h2])]

theorem crossRows_length (meters : List String) (ts : List Nat) :
    (crossRows meters ts).length = meters.length * ts.length := by
  induction meters with
  | nil => simp [crossRows]
  | cons a as ih =>
    simp only [crossRows, List.flatMap_cons, List.length_append, List.length_map,
      List.length_cons] at ih ⊢
    rw [ih]
    ring

theorem crossRows_mem (meters : List String) (ts : List Nat) {m : String} {t : Nat}
    (hm : m ∈ meters) (ht : t ∈ ts) :
    Row.mk m (formatTimestamp t) 1 ∈ crossRows meters ts := by
  unfold crossRows
  exact List.mem_flatMap.mpr ⟨m, hm, List.mem_map.mpr ⟨t, ht, rfl⟩⟩

theorem crossRows_kpi (meters : List String) (ts : List Nat) :
    ∀ r ∈ crossRows meters ts, r.kpi = 1 := by
  intro r hr
  unfold crossRows at hr
  rcases List.mem_flatMap.mp hr with ⟨m, _, hr2⟩
  rcases List.mem_map.mp hr2 with ⟨t, _, rfl⟩
  rfl

theorem crossRows_map_name (meters : List String) (ts : List Nat) :
    (crossRows meters ts).map Row.name
      = meters.flatMap (fun m => List.replicate ts.length m) := by
  unfold crossRows
  rw [List.map_flatMap]
  refine congrArg (List.flatMap meters) (funext fun m => ?_)
  rw [List.map_map]
  show (ts.map fun _ => m) = List.replicate ts.length m
  exact List.map_const' ts m

theorem crossRows_name_mem (meters : List String) (ts : List Nat) (h2 : ts ≠ [])
    (x : String) :
    x ∈ (crossRows meters ts).map Row.name ↔ x ∈ meters := by
  rw [crossRows_map_name]
  simp only [List.mem_flatMap]
  constructor
  · rintro ⟨m, hm, hrep⟩
    rw [List.eq_of_mem_replicate hrep]
    exact hm
  · intro hx
    have hlen : ts.length ≠ 0 := fun h0 => h2 (List.eq_nil_of_length_eq_zero h0)
    exact ⟨x, hx, List.mem_replicate.mpr ⟨hlen, rfl⟩⟩

theorem crossRows_pair_head1 (ts : List Nat) (m : String) :
    (ts.map (fun t => Row.mk m (formatTimestamp t) 1)).map (fun r => (r.name, r.ts))
      = ts.map (fun t => (m, formatTimestamp t)) := by
  rw [List.map_map]
  rfl

theorem crossRows_pair_head2 (ts : List Nat) (m : String) :
    ((ts.map formatTimestamp).map (fun s => (m, s)))
      = ts.map (fun t => (m, formatTimestamp t)) := by
  rw [List.map_map]
  rfl

theorem crossRows_map_pair (meters : List String) (ts : List Nat) :
    (crossRows meters ts).map (fun r => (r.name, r.ts))
      = meters.flatMap (fun m => (ts.map formatTimestamp).map (fun s => (m, s))) := by
  induction meters with
  | nil => rfl
  | cons a as ih =>
    simp only [crossRows, List.flatMap_cons, List.map_append] at ih ⊢
    rw [ih, crossRows_pair_head1, crossRows_pair_head2]

theorem crossRows_pair_nodup (meters : List String) (ts : List Nat)
    (h3 : meters.Nodup) (h4 : (ts.map formatTimestamp).Nodup) :
    ((crossRows meters ts).map (fun r => (r.name, r.ts))).Nodup := by
  rw [crossRows_map_pair, List.nodup_flatMap]
  constructor
  · intro m _
    exact h4.map (fun a b e => by injection e)
  · refine List.Pairwise.imp ?_ h3
    intro a b hab x hxa hxb
    rcases List.mem_map.mp hxa with ⟨s, _, rfl⟩
    rcases List.mem_map.mp hxb with ⟨s2, _, he⟩
    injection he with he1 _
    exact hab he1.symm

/-! ### C1 — sort order of the built dataset -/

/-- C1 counterexample: with one meter and the two consecutive instants
31/01/2024 23:00 and 01/02/2024 00:00 (minutes 28445700 and 28445760 since
1970-01-01 00:00), `create_full_df` orders the rows by the lexical order of
the already-formatted `DD/MM/YYYY HH:MM` strings, which puts the *later*
instant first; the result is not sorted by the chronological value the
timestamp strings denote, although the dates differ by one hour across a
month boundary. -/
theorem create_full_df_not_chrono_sorted :
    create_full_df ["M"] [28445700, 28445760] =
      Except.ok [Row.mk "M" "01/02/2024 00:00" 1, Row.mk "M" "31/01/2024 23:00" 1] ∧
    ¬ List.Pairwise chronoRowLe
        [Row.mk "M" "01/02/2024 00:00" 1, Row.mk "M" "31/01/2024 23:00" 1] ∧
    parseTimestamp "31/01/2024 23:00" < parseTimestamp "01/02/2024 00:00" := by
  refine ⟨rfl, by decide, by decide⟩

/-- C1 (amended): for every non-empty meter list and non-empty timestamp
grid, the dataset returned by `create_full_df` is sorted by MeterId
ascending and, within each meter, by the *lexical string order* of the
formatted `DD/MM/YYYY HH:MM` timestamp strings (which can disagree with
chronological order across day/month boundaries). -/
theorem create_full_df_sorted_lex (meters : List String) (ts : List Nat)
    (h1 : meters ≠ []) (h2 : ts ≠ []) :
    ∃ rows, create_full_df meters ts = Except.ok rows ∧ rows.Pairwise rowLe :=
  ⟨_, create_full_df_eq meters ts h1 h2, List.sorted_insertionSort rowLe _⟩

/-- Witness for the amended C1. -/
theorem create_full_df_sorted_lex_witness :
    ∃ rows, create_full_df ["A"] [0] = Except.ok rows ∧ rows.Pairwise rowLe :=
  create_full_df_sorted_lex ["A"] [0] (by decide) (by decide)

/-! ### C5 — the built dataset is the cartesian product -/

/-- C5: for every non-empty, duplicate-free meter list and non-empty
timestamp grid (instants with pairwise distinct minute renderings, which is
what the generator's fixed frequencies produce), the built dataset has
exactly `|meters| * |grid|` rows, contains one row per (meter, timestamp)
pair, no two rows share the same (MeterId, Timestamp) pair, and every
`KPI Trigger` value is 1. -/
theorem create_full_df_cartesian (meters : List String) (ts : List Nat)
    (h1 : meters ≠ []) (h2 : ts ≠ []) (h3 : meters.Nodup)
    (h4 : (ts.map formatTimestamp).Nodup) :
    ∃ rows, create_full_df meters ts = Except.ok rows ∧
      rows.length = meters.length * ts.length ∧
      (∀ m ∈ meters, ∀ t ∈ ts, Row.mk m (formatTimestamp t) 1 ∈ rows) ∧
      (rows.map (fun r => (r.name, r.ts))).Nodup ∧
      (∀ r ∈ rows, r.kpi = 1) := by
  have hp : List.Perm (List.insertionSort rowLe (crossRows meters ts))
      (crossRows meters ts) :=
    List.perm_insertionSort rowLe _
  refine ⟨List.insertionSort rowLe (crossRows meters ts),
    create_full_df_eq meters ts h1 h2, ?_, ?_, ?_, ?_⟩
  · rw [hp.length_eq, crossRows_length]
  · intro m hm t ht
    exact hp.mem_iff.mpr (crossRows_mem meters ts hm ht)
  · exact ((hp.map _).nodup_iff).mpr (crossRows_pair_nodup meters ts h3 h4)
  · intro r hr
    exact crossRows_kpi meters ts r (hp.mem_iff.mp hr)

/-- Witness for C5 at two meters and two instants. -/
theorem create_full_df_cartesian_witness :
    ∃ rows, create_full_df ["A", "B"] [0, 30] = Except.ok rows ∧
      rows.length = (["A", "B"] : List String).length * ([0, 30] : List Nat).length ∧
      (∀ m ∈ (["A", "B"] : List String), ∀ t ∈ ([0, 30] : List Nat),
        Row.mk m (formatTimestamp t) 1 ∈ rows) ∧
      (rows.map (fun r => (r.name, r.ts))).Nodup ∧
      (∀ r ∈ rows, r.kpi = 1) :=
  create_full_df_cartesian ["A", "B"] [0, 30] (by decide) (by decide) (by decide) (by decide)

/-! ### C6 — validator reports no errors on builder output -/

/-- C6: running `validate_generated_df` on the dataset built by
`create_full_df` from a valid, non-empty meter list (distinct meters) and a
non-empty grid of distinct instants (distinct minute renderings, as the
supported frequencies produce) yields zero blocking errors. -/
theorem validate_after_create_no_errors (meters : List String) (ts : List Nat)
    (h1 : meters ≠ []) (h2 : ts ≠ []) (h3 : meters.Nodup)
    (h4 : (ts.map formatTimestamp).Nodup) :
    ∃ rows, create_full_df meters ts = Except.ok rows ∧
      (validate_generated_df rows meters ts).1 = [] := by
  have hp : List.Perm (List.insertionSort rowLe (crossRows meters ts))
      (crossRows meters ts) :=
    List.perm_insertionSort rowLe _
  refine ⟨List.insertionSort rowLe (crossRows meters ts),
    create_full_df_eq meters ts h1 h2, ?_⟩
  have hnames : (((List.insertionSort rowLe (crossRows meters ts)).map Row.name).dedup).length
      = meters.length := by
    have hperm : List.Perm ((List.insertionSort rowLe (crossRows meters ts)).map Row.name)
        ((crossRows meters ts).map Row.name) := hp.map _
    rw [hperm.dedup.length_eq, ← List.card_toFinset,
      show ((crossRows meters ts).map Row.name).toFinset = meters.toFinset from
        Finset.ext fun x => by
          simp only [List.mem_toFinset]
          exact crossRows_name_mem meters ts h2 x]
    exact List.toFinset_card_of_nodup h3
  have hpairs : ((List.insertionSort rowLe (crossRows meters ts)).map
      (fun r => (r.name, r.ts))).Nodup :=
    ((hp.map _).nodup_iff).mpr (crossRows_pair_nodup meters ts h3 h4)
  have hkpi : ∀ r ∈ List.insertionSort rowLe (crossRows meters ts), r.kpi = 1 :=
    fun r hr => crossRows_kpi meters ts r (hp.mem_iff.mp hr)
  have e1 : vgErr1 (List.insertionSort rowLe (crossRows meters ts)) meters = [] := by
    unfold vgErr1
    rw [hnames]
    simp
  have e2 : vgErr2 (List.insertionSort rowLe (crossRows meters ts)) = [] := by
    unfold vgErr2
    rw [List.Nodup.dedup hpairs, List.length_map]
    simp
  have e3 : vgErr3 (List.insertionSort rowLe (crossRows meters ts)) = [] := by
    unfold vgErr3
    have hfil : (List.insertionSort rowLe (crossRows meters ts)).filter
        (fun r => r.kpi ≠ 1) = [] := by
      rw [List.filter_eq_nil_iff]
      intro r hr
      simp [hkpi r hr]
    rw [hfil]
    simp
  show vgErr1 _ meters ++ vgErr2 _ ++ vgErr3 _ = []
  rw [e1, e2, e3]
  rfl

/-- Witness for C6 at two meters and two instants half an hour apart. -/
theorem validate_after_create_no_errors_witness :
    ∃ rows, create_full_df ["A", "B"] [0, 30] = Except.ok rows ∧
      (validate_generated_df rows ["A", "B"] [0, 30]).1 = [] :=
  validate_after_create_no_errors ["A", "B"] [0, 30]
    (by decide) (by decide) (by decide) (by decide)

/-! ### C3 — what the generated-data validator actually checks -/

theorem vgErr1_ne_nil_iff (df : List Row) (meters : List String) :
    vgErr1 df meters ≠ [] ↔
      ((df.map Row.name).toFinset.card ≠ meters.length ∧
        ∃ m ∈ meters, ¬ m ∈ df.map Row.name) := by
  unfold vgErr1
  by_cases hc : ((df.map Row.name).dedup).length ≠ meters.length
  · rw [if_pos hc]
    by_cases hm : meters.filter (fun m => ¬ m ∈ (df.map Row.name).dedup) ≠ []
    · rw [if_pos hm]
      constructor
      · intro _
        refine ⟨by rwa [List.card_toFinset], ?_⟩
        rcases List.exists_mem_of_ne_nil _ hm with ⟨x, hx⟩
        rcases List.mem_filter.mp hx with ⟨hx1, hx2⟩
        exact ⟨x, hx1, by simpa [List.mem_dedup] using hx2⟩
      · intro _
        simp
    · rw [if_neg hm]
      rw [not_not] at hm
      constructor
      · intro h
        exact absurd rfl h
      · rintro ⟨_, m, hm1, hm2⟩
        have h5 := List.filter_eq_nil_iff.mp hm m hm1
        simp only [decide_eq_true_eq, not_not] at h5
        rw [List.mem_dedup] at h5
        exact absurd h5 hm2
  · rw [if_neg hc]
    rw [not_not] at hc
    constructor
    · intro h
      exact absurd rfl h
    · rintro ⟨hcard, _⟩
      exact absurd (by rwa [List.card_toFinset]) hcard

theorem vgErr2_ne_nil_iff (df : List Row) :
    vgErr2 df ≠ [] ↔ ¬ (df.map (fun r => (r.name, r.ts))).Nodup := by
  unfold vgErr2
  have hlen : (df.map (fun r => (r.name, r.ts))).length = df.length := List.length_map _ _
  have hle : ((df.map (fun r => (r.name, r.ts))).dedup).length
      ≤ (df.map (fun r => (r.name, r.ts))).length :=
    (List.dedup_sublist _).length_le
  by_cases hpos : df.length - ((df.map (fun r => (r.name, r.ts))).dedup).length > 0
  · rw [if_pos hpos]
    constructor
    · intro _ hnd
      rw [List.Nodup.dedup hnd, hlen] at hpos
      omega
    · intro _
      simp
  · rw [if_neg hpos]
    constructor
    · intro h
      exact absurd rfl h
    · intro hnd
      exfalso
      apply hnd
      have heq : ((df.map (fun r => (r.name, r.ts))).dedup).length
          = (df.map (fun r => (r.name, r.ts))).length := by omega
      have hde := (List.dedup_sublist (df.map (fun r => (r.name, r.ts)))).eq_of_length heq
      exact hde ▸ List.nodup_dedup _

theorem vgErr3_ne_nil_iff (df : List Row) :
    vgErr3 df ≠ [] ↔ ∃ r ∈ df, r.kpi ≠ 1 := by
  unfold vgErr3
  by_cases hpos : (df.filter (fun r => r.kpi ≠ 1)).length > 0
  · rw [if_pos hpos]
    constructor
    · intro _
      have hne : df.filter (fun r => r.kpi ≠ 1) ≠ [] := by
        intro h0
        rw [h0] at hpos
        simp at hpos
      rcases List.exists_mem_of_ne_nil _ hne with ⟨r, hr⟩
      rcases List.mem_filter.mp hr with ⟨hr1, hr2⟩
      exact ⟨r, hr1, by simpa using hr2⟩
    · intro _
      simp
  · rw [if_neg hpos]
    constructor
    · intro h
      exact absurd rfl h
    · rintro ⟨r, hr, hk⟩
      exfalso
      apply hpos
      have hmem : r ∈ df.filter (fun r => r.kpi ≠ 1) :=
        List.mem_filter.mpr ⟨hr, by simpa using hk⟩
      exact List.length_pos.mpr (List.ne_nil_of_mem hmem)

/-- C3 counterexample: a two-row dataset validated against one meter and one
timestamp, so the row count (2) differs from `|meters| × |grid|` (1); the
extra row carries a meter name that is not in the input list, so the
distinct-name count differs but no *input* meter is missing, and no other
check fires: the returned blocking errors (and even the warnings) are
empty. -/
theorem validate_generated_df_rowcount_unchecked :
    validate_generated_df
      [Row.mk "A" "01/01/1970 00:00" 1, Row.mk "Z" "01/01/1970 00:30" 1] ["A"] [0]
      = ([], []) ∧
    ([Row.mk "A" "01/01/1970 00:00" 1, Row.mk "Z" "01/01/1970 00:30" 1].length
      ≠ (["A"] : List String).length * ([0] : List Nat).length) := by
  refine ⟨by decide, by decide⟩

/-- C3 (amended): `validate_generated_df` performs no row-count check at
all: its blocking-error list is non-empty exactly when one of its three
implemented checks fires — the distinct-meter-name count differs from
`|meters|` with some input meter missing from the dataset, some
(MeterId, Timestamp) pair repeats, or some `KPI Trigger` differs from 1.
A row count different from `|meters| × |grid|` does not by itself produce
a blocking error. -/
theorem validate_generated_df_errors_iff (df : List Row) (meters : List String)
    (ts : List Nat) :
    (validate_generated_df df meters ts).1 ≠ [] ↔
      (((df.map Row.name).toFinset.card ≠ meters.length ∧
          ∃ m ∈ meters, ¬ m ∈ df.map Row.name) ∨
        ¬ (df.map (fun r => (r.name, r.ts))).Nodup ∨
        ∃ r ∈ df, r.kpi ≠ 1) := by
  rw [← vgErr1_ne_nil_iff df meters, ← vgErr2_ne_nil_iff df, ← vgErr3_ne_nil_iff df]
  show vgErr1 df meters ++ vgErr2 df ++ vgErr3 df ≠ [] ↔ _
  simp only [ne_eq, List.append_eq_nil]
  tauto

/-- Witness for the amended C3: a dataset whose only row has KPI 0 is
rejected. -/
theorem validate_generated_df_errors_iff_witness :
    (validate_generated_df [Row.mk "A" "01/01/1970 00:00" 0] ["A"] []).1 ≠ [] :=
  (validate_generated_df_errors_iff [Row.mk "A" "01/01/1970 00:00" 0] ["A"] []).mpr
    (Or.inr (Or.inr ⟨Row.mk "A" "01/01/1970 00:00" 0, by decide, by decide⟩))

/-! ### C2 — handling of absent and blank upload cells -/

/-- C2: `validate_uploaded_file` silently drops absent (NaN) cells: on the
single-column table `[header, NaN, "M1"]` the absent data row is recorded
*nowhere* — the invalid-entries list is empty — because `.dropna()` removes
it before the classification loop (whose own `pd.isna` branch is therefore
unreachable).  By contrast a present, whitespace-only cell *is* recorded,
with row number index+2 and reason `"Empty or NaN value"`, and neither case
halts processing: the remaining valid meters are still returned. -/
theorem validate_uploaded_file_drops_nan_row :
    validate_uploaded_file [[some "header"], [none], [some "M1"]]
      = Except.ok ⟨["M1"], [], [], []⟩ ∧
    validate_uploaded_file [[some "header"], [some "  "], [some "M1"]]
      = Except.ok ⟨["M1"], [(3, "  ", "Empty or NaN value")], [],
          ["Found 1 invalid meter entries"]⟩ := by
  refine ⟨rfl, rfl⟩

/-! ### C7 — first-seen deduplication -/

theorem specFirstSeen_go (cands : List String) :
    ∀ (u d seen : List String), (∀ m, m ∈ seen ↔ m ∈ u) →
      cands.foldl
        (fun acc m => if m ∈ acc.1 then (acc.1, acc.2 ++ [m]) else (acc.1 ++ [m], acc.2))
        (u, d)
      = (u ++ (dedupeMeters cands seen).1, d ++ (dedupeMeters cands seen).2) := by
  induction cands with
  | nil =>
    intro u d seen _
    simp [dedupeMeters]
  | cons m rest ih =>
    intro u d seen hinv
    rw [List.foldl_cons]
    by_cases hm : m ∈ u
    · have hseen : m ∈ seen := (hinv m).mpr hm
      simp only [if_pos hm]
      rw [ih u (d ++ [m]) seen hinv]
      simp only [dedupeMeters, if_pos hseen]
      simp [List.append_assoc]
    · have hseen : ¬ m ∈ seen := fun h => hm ((hinv m).mp h)
      simp only [if_neg hm]
      have hinv2 : ∀ x, x ∈ m :: seen ↔ x ∈ u ++ [m] := by
        intro x
        simp [List.mem_cons, List.mem_append, hinv x, or_comm]
      rw [ih (u ++ [m]) d (m :: seen) hinv2]
      simp only [dedupeMeters, if_neg hseen]
      simp [List.append_assoc]

theorem dedupeMeters_eq_specFirstSeen (cands : List String) :
    dedupeMeters cands [] = specFirstSeen cands := by
  unfold specFirstSeen
  rw [specFirstSeen_go cands [] [] [] (fun m => Iff.rfl)]
  simp

theorem dedupeMeters_nodup (cands : List String) :
    ∀ seen : List String,
      (∀ m ∈ (dedupeMeters cands seen).1, ¬ m ∈ seen) ∧
      (dedupeMeters cands seen).1.Nodup := by
  induction cands with
  | nil =>
    intro seen
    simp [dedupeMeters]
  | cons m rest ih =>
    intro seen
    by_cases hm : m ∈ seen
    · simp only [dedupeMeters, if_pos hm]
      exact ih seen
    · simp only [dedupeMeters, if_neg hm]
      obtain ⟨ih1, ih2⟩ := ih (m :: seen)
      constructor
      · intro x hx
        rcases List.mem_cons.mp hx with rfl | hx2
        · exact hm
        · intro hxs
          exact ih1 x hx2 (List.mem_cons_of_mem m hxs)
      · refine List.nodup_cons.mpr ⟨?_, ih2⟩
        intro hmem
        exact ih1 m hmem (List.mem_cons_self m seen)

/-- C7: for every upload table with a data section, the extractor succeeds,
its unique-meter list and duplicate list are exactly the first-seen walk
(`specFirstSeen`, worded from the spec) over the valid candidates, and the
unique list is duplicate-free; in particular, on the table
`[header, M1, M2, M1]` with the header skipped it returns unique meters
`[M1, M2]` in that order, duplicates `[M1]`, and no invalid entries. -/
theorem validate_uploaded_file_first_seen :
    (∀ df : List (List (Option String)), df ≠ [] → meterData df ≠ [] →
      ∃ r, validate_uploaded_file df = Except.ok r ∧
        r.unique_meters = (specFirstSeen (classifyMeters (itemsOf df)).1).1 ∧
        r.duplicate_meters = (specFirstSeen (classifyMeters (itemsOf df)).1).2 ∧
        r.unique_meters.Nodup) ∧
    validate_uploaded_file [[some "header"], [some "M1"], [some "M2"], [some "M1"]]
      = Except.ok ⟨["M1", "M2"], [], ["M1"],
          ["Found 1 duplicate meters (will be deduplicated)"]⟩ := by
  constructor
  · intro df h1 h2
    have hlen : ¬ ((meterData df).length = 0) := by
      simpa [List.length_eq_zero] using h2
    refine ⟨⟨(dedupeMeters (classifyMeters (itemsOf df)).1 []).1,
      (classifyMeters (itemsOf df)).2,
      (dedupeMeters (classifyMeters (itemsOf df)).1 []).2,
      (if (dedupeMeters (classifyMeters (itemsOf df)).1 []).2 ≠ [] then
        ["Found " ++ toString (dedupeMeters (classifyMeters (itemsOf df)).1 []).2.length ++
          " duplicate meters (will be deduplicated)"]
      else []) ++
      (if (classifyMeters (itemsOf df)).2 ≠ [] then
        ["Found " ++ toString (classifyMeters (itemsOf df)).2.length ++
          " invalid meter entries"]
      else [])⟩, ?_, ?_, ?_, ?_⟩
    · unfold validate_uploaded_file
      rw [if_neg h1, if_neg hlen]
    · show (dedupeMeters (classifyMeters (itemsOf df)).1 []).1 = _
      rw [dedupeMeters_eq_specFirstSeen]
    · show (dedupeMeters (classifyMeters (itemsOf df)).1 []).2 = _
      rw [dedupeMeters_eq_specFirstSeen]
    · exact (dedupeMeters_nodup (classifyMeters (itemsOf df)).1 []).2
  · rfl

/-- Witness for C7, applying the universal part at the spec scenario. -/
theorem validate_uploaded_file_first_seen_witness :
    ∃ r, validate_uploaded_file [[some "header"], [some "M1"], [some "M2"], [some "M1"]]
        = Except.ok r ∧
      r.unique_meters = (specFirstSeen (classifyMeters (itemsOf
        [[some "header"], [some "M1"], [some "M2"], [some "M1"]])).1).1 ∧
      r.duplicate_meters = (specFirstSeen (classifyMeters (itemsOf
        [[some "header"], [some "M1"], [some "M2"], [some "M1"]])).1).2 ∧
      r.unique_meters.Nodup :=
  validate_uploaded_file_first_seen.1
    [[some "header"], [some "M1"], [some "M2"], [some "M1"]] (by decide) (by decide)

/-! ### C9 — tables with more than one column -/

/-- C9 counterexample: a two-column table does not fail with any shape
error — `validate_uploaded_file` silently processes the first column and
returns its meters. -/
theorem validate_uploaded_file_two_columns_no_error :
    validate_uploaded_file [[some "ID", some "extra"], [some "M1", some "junk"]]
      = Except.ok ⟨["M1"], [], [], []⟩ := by
  rfl

/-- C9 (amended): `validate_uploaded_file` never checks the column count:
its result depends only on the first column of the table (columns beyond
the first are silently ignored, and no shape error exists). -/
theorem validate_uploaded_file_first_column_only
    (df : List (List (Option String))) :
    validate_uploaded_file df
      = validate_uploaded_file (df.map (fun row => [row.getD 0 none])) := by
  have hempty : df = [] ↔ df.map (fun row => [row.getD 0 none]) = [] :=
    (List.map_eq_nil_iff).symm
  have hcol : firstCol (df.map (fun row => [row.getD 0 none])) = firstCol df := by
    unfold firstCol
    rw [List.map_map]
    apply List.map_congr_left
    intro row _
    rfl
  unfold validate_uploaded_file meterData itemsOf meterData
  rw [hcol]
  by_cases h : df = []
  · rw [if_pos h, if_pos (hempty.mp h)]
  · rw [if_neg h, if_neg (fun hc => h (hempty.mpr hc))]

/-- Witness for the amended C9 at a concrete two-column table. -/
theorem validate_uploaded_file_first_column_only_witness :
    validate_uploaded_file [[some "ID", some "extra"], [some "M1", some "junk"]]
      = validate_uploaded_file
          ([[some "ID", some "extra"], [some "M1", some "junk"]].map
            (fun row => [row.getD 0 none])) :=
  validate_uploaded_file_first_column_only
    [[some "ID", some "extra"], [some "M1", some "junk"]]

end PyApp
